import Mathlib

/-!
Shallow embedding of the `into_inner_drop` crate (`src/lib.rs`).

The crate exports one trait and one type:

* `DetachedDrop`: a marker capability with `fn drop(value: Self::Implementor)`,
  a finalizer that consumes the payload by value;
* `IntoInnerHelper<T, D>`: a wrapper holding `inner: ManuallyDrop<T>` plus a
  zero-sized `PhantomData<D>`, with operations `new`, `inner`, `inner_mut`,
  `into_inner`, and an implicit `Drop` implementation.

The embedding models the payload slot, the Rust drop flag (cleared by
`core::mem::forget`), and an event trace.  Two kinds of observable events are
recorded: invocations of the bound finalizer `D::drop`, and runs of the
payload type's own intrinsic destructor.  Lifecycles are modelled explicitly:
a cell is created, subjected to a sequence of borrow / write-through-borrow
operations, and then ended by exactly one terminal operation (`into_inner` or
implicit destruction), which is what Rust's ownership discipline enforces for
the source type.
-/

namespace IntoInnerDrop

/-- `core::mem::ManuallyDrop<T>`: a slot holding a `T` whose intrinsic
destructor is suppressed — dropping the `ManuallyDrop` wrapper itself never
runs `T`'s destructor. -/
structure ManuallyDrop (T : Type) where
  value : T
deriving DecidableEq, Repr

/-- `ManuallyDrop::new` — wraps the value; no side effect. -/
def ManuallyDrop.new {T : Type} (v : T) : ManuallyDrop T := ⟨v⟩

/-- `Deref for ManuallyDrop` (`&*self.inner`): reads the stored value. -/
def ManuallyDrop.deref {T : Type} (m : ManuallyDrop T) : T := m.value

/-- Observable events of a lifecycle:
`finalize v` — the bound finalizer `D::drop` was invoked with payload `v`;
`intrinsicDrop v` — the payload type `T`'s own destructor ran on `v`. -/
inductive Event (T : Type) where
  | finalize (v : T)
  | intrinsicDrop (v : T)
deriving DecidableEq, Repr

/-- Is the event a finalizer (`D::drop`) invocation? -/
def Event.isFinalize {T : Type} : Event T → Bool
  | .finalize _ => true
  | .intrinsicDrop _ => false

/-- Is the event a run of the payload's intrinsic destructor? -/
def Event.isIntrinsic {T : Type} : Event T → Bool
  | .finalize _ => false
  | .intrinsicDrop _ => true

/-- The payloads passed to the finalizer, in invocation order. -/
def finalizeValues {T : Type} (evs : List (Event T)) : List T :=
  evs.filterMap fun e => match e with
    | .finalize v => some v
    | .intrinsicDrop _ => none

/-- Number of finalizer (`D::drop`) invocations in a trace. -/
def finalizeCount {T : Type} (evs : List (Event T)) : Nat :=
  (evs.filter Event.isFinalize).length

/-- Number of intrinsic-destructor runs of the payload in a trace. -/
def intrinsicCount {T : Type} (evs : List (Event T)) : Nat :=
  (evs.filter Event.isIntrinsic).length

/-- `struct IntoInnerHelper<T, D> { inner: ManuallyDrop<T>, _phantom: PhantomData<D> }`.
The `PhantomData<D>` field is zero-sized and carries no runtime state, so it
is not represented. -/
structure IntoInnerHelper (T : Type) where
  inner : ManuallyDrop T
deriving DecidableEq, Repr

/-- `IntoInnerHelper::new(inner)`: wraps the payload in `ManuallyDrop::new`;
pure data move, no side effect. -/
def IntoInnerHelper.new {T : Type} (p : T) : IntoInnerHelper T :=
  { inner := ManuallyDrop.new p }

/-- `inner(&self) -> &T` (`&*self.inner`): the value behind the returned
shared reference.  Takes `&self`, so it cannot change the cell. -/
def IntoInnerHelper.innerRef {T : Type} (c : IntoInnerHelper T) : T :=
  c.inner.deref

/-- `inner_mut(&mut self) -> &mut T` (`&mut *self.inner`): the value behind
the returned exclusive reference at the moment of the call.  The call itself
performs no mutation; mutation happens only through the returned reference
(modelled separately by `PreOp.write`). -/
def IntoInnerHelper.innerMutRef {T : Type} (c : IntoInnerHelper T) : T :=
  c.inner.deref

/-- A runtime cell object: the helper value together with its drop flag.
`armed = true` means the scope-exit glue will run `Drop::drop` on the object;
`core::mem::forget` clears the flag. -/
structure CellObj (T : Type) where
  cell : IntoInnerHelper T
  armed : Bool
deriving DecidableEq, Repr

/-- A freshly constructed cell: payload stored, drop armed. -/
def CellObj.new {T : Type} (p : T) : CellObj T :=
  { cell := IntoInnerHelper.new p, armed := true }

/-- `into_inner(self) -> T`:
`let inner = core::ptr::read(&*self.inner); core::mem::forget(self); inner` —
reads the payload out of the slot into a temporary, then forgets `self`
(clearing its drop flag so `Drop::drop` never runs), and returns the
temporary.  Emits no events itself. -/
def runIntoInner {T : Type} (o : CellObj T) : T × CellObj T :=
  (o.cell.inner.deref, { cell := o.cell, armed := false })

/-- `impl Drop for IntoInnerHelper` as executed by the scope-exit glue:
if the drop flag is still set, `D::drop(core::ptr::read(&*self.inner))` runs —
the finalizer receives the payload by value and, consuming it, lets the
payload's own destructor run when it returns.  The `ManuallyDrop` slot itself
is never dropped.  If the object was forgotten, nothing happens. -/
def scopeExit {T : Type} (o : CellObj T) : List (Event T) :=
  if o.armed then
    [Event.finalize o.cell.inner.deref, Event.intrinsicDrop o.cell.inner.deref]
  else
    []

/-- Non-terminal operations on a live cell:
`borrow` — a call to `inner(&self)`;
`borrowMut` — a call to `inner_mut(&mut self)` whose reference is not written;
`write q` — `*cell.inner_mut() = q`, an assignment through the exclusive
reference returned by `inner_mut` (Rust drops the overwritten payload). -/
inductive PreOp (T : Type) where
  | borrow
  | borrowMut
  | write (q : T)
deriving DecidableEq, Repr

/-- Does the pre-operation write through the `inner_mut` reference? -/
def PreOp.isWrite {T : Type} : PreOp T → Bool
  | .borrow => false
  | .borrowMut => false
  | .write _ => true

/-- Effect of one non-terminal operation: borrows leave the cell untouched;
a write replaces the slot contents and drops the old payload. -/
def applyPre {T : Type} (o : CellObj T) : PreOp T → CellObj T × List (Event T)
  | .borrow => (o, [])
  | .borrowMut => (o, [])
  | .write q =>
      ({ cell := { inner := ManuallyDrop.new q }, armed := o.armed },
       [Event.intrinsicDrop o.cell.inner.deref])

/-- Run a sequence of non-terminal operations, accumulating events. -/
def runPres {T : Type} (o : CellObj T) : List (PreOp T) → CellObj T × List (Event T)
  | [] => (o, [])
  | op :: rest =>
      ((runPres (applyPre o op).1 rest).1,
       (applyPre o op).2 ++ (runPres (applyPre o op).1 rest).2)

/-- The two mutually exclusive ways a cell's lifetime ends. -/
inductive Terminal where
  | extract
  | implicitDrop
deriving DecidableEq, Repr

/-- Terminal step.  `extract`: `into_inner` reads the payload and forgets the
cell; the forgotten cell's scope exit emits nothing, and the caller, now sole
owner of the returned payload, eventually lets its intrinsic destructor run.
`implicitDrop`: the cell goes out of scope with its drop flag set and the
drop glue runs. -/
def runTerminal {T : Type} (o : CellObj T) : Terminal → Option T × List (Event T)
  | .extract =>
      (some (runIntoInner o).1,
       scopeExit (runIntoInner o).2 ++ [Event.intrinsicDrop (runIntoInner o).1])
  | .implicitDrop => (none, scopeExit o)

/-- A full single-cell lifecycle: construct with payload `p`, perform the
non-terminal operations `pres`, end with terminal `t`.  Returns the payload
handed to the caller (for `extract`) and the event trace. -/
def run {T : Type} (p : T) (pres : List (PreOp T)) (t : Terminal) :
    Option T × List (Event T) :=
  ((runTerminal (runPres (CellObj.new p) pres).1 t).1,
   (runPres (CellObj.new p) pres).2 ++ (runTerminal (runPres (CellObj.new p) pres).1 t).2)

/-! ### Micro-step model of `into_inner` and panic-freedom of the primitives

`into_inner` is the single unsafe spot of the crate.  Its body is two
primitive steps in source order: `core::ptr::read(&*self.inner)` into a
temporary, then `core::mem::forget(self)`.  The model below makes each step
explicit, records whether each primitive can unwind, and gives the events the
unwinding drop glue would emit if execution were aborted between steps. -/

/-- The micro-steps of `into_inner`, in source order. -/
inductive IntoInnerStep where
  | readSlot
  | forgetSelf
deriving DecidableEq, Repr

/-- `into_inner`'s body: read the slot, then forget `self`. -/
def intoInnerSteps : List IntoInnerStep := [.readSlot, .forgetSelf]

/-- Whether the primitive can unwind: `core::ptr::read` and `core::mem::forget`
are non-panicking primitives. -/
def IntoInnerStep.canPanic : IntoInnerStep → Bool
  | .readSlot => false
  | .forgetSelf => false

/-- Micro-states of an `into_inner` execution. -/
inductive IIState (T : Type) where
  | start (o : CellObj T)
  | afterRead (temp : T) (o : CellObj T)
  | done (ret : T) (o : CellObj T)
deriving DecidableEq, Repr

/-- One micro-step of `into_inner`: `readSlot` copies the payload out of the
slot into a temporary; `forgetSelf` clears the drop flag and returns the
temporary.  Steps are only defined in the state they occur in. -/
def IIState.exec {T : Type} : IIState T → IntoInnerStep → Option (IIState T)
  | .start o, .readSlot => some (.afterRead o.cell.inner.deref o)
  | .afterRead temp o, .forgetSelf =>
      some (.done temp { cell := o.cell, armed := false })
  | _, _ => none

/-- Run a list of micro-steps from a state. -/
def runMicroSteps {T : Type} (s : IIState T) : List IntoInnerStep → Option (IIState T)
  | [] => some s
  | st :: rest =>
      match IIState.exec s st with
      | some s1 => runMicroSteps s1 rest
      | none => none

/-- Events the unwinding drop glue would emit if `into_inner` were aborted in
the given micro-state: live locals are dropped, and an armed `self` runs
`Drop::drop`.  In `afterRead`, the temporary and the still-armed `self` both
hold the payload, so aborting there would finalize it twice — which is why
the source must not place any failure point there. -/
def IIState.unwindEvents {T : Type} : IIState T → List (Event T)
  | .start o => scopeExit o
  | .afterRead temp o => Event.intrinsicDrop temp :: scopeExit o
  | .done ret o => scopeExit o ++ [Event.intrinsicDrop ret]

/-- Indices of micro-steps of `into_inner` at which an unwind is possible. -/
def possiblePanicPoints : List Nat :=
  (List.range intoInnerSteps.length).filter
    (fun i => (intoInnerSteps.getD i IntoInnerStep.readSlot).canPanic)

/-- The public operations of the component. -/
inductive ApiOp where
  | newOp
  | innerOp
  | innerMutOp
  | intoInnerOp
  | dropOp
deriving DecidableEq, Repr

/-- The primitive operations the component's own code performs (the body of
the user-supplied finalizer `D::drop` is the user's code, outside the
component's authority). -/
inductive Prim where
  | manuallyDropNew
  | phantomDefault
  | derefSlot
  | ptrRead
  | memForget
deriving DecidableEq, Repr

/-- Whether the primitive can fail, return an error value, or reject a call
with a runtime check.  Every primitive the source uses is an infallible core
operation with no runtime check. -/
def Prim.canFail : Prim → Bool
  | .manuallyDropNew => false
  | .phantomDefault => false
  | .derefSlot => false
  | .ptrRead => false
  | .memForget => false

/-- The primitives each public operation executes, in source order. -/
def ApiOp.prims : ApiOp → List Prim
  | .newOp => [.manuallyDropNew, .phantomDefault]
  | .innerOp => [.derefSlot]
  | .innerMutOp => [.derefSlot]
  | .intoInnerOp => [.derefSlot, .ptrRead, .memForget]
  | .dropOp => [.derefSlot, .ptrRead]

/-! ### Multi-instance scenarios -/

/-- Trace of one independent cell instance, given its payload and the terminal
operation its owner performed. -/
def instEvents {T : Type} (i : T × Terminal) : List (Event T) :=
  (run i.1 [] i.2).2

/-- Combined trace when the instances of `l` are destroyed in list order. -/
def totalEvents {T : Type} (l : List (T × Terminal)) : List (Event T) :=
  (l.map instEvents).flatten

/-! ## Helper lemmas -/

/-- A sequence of pure borrow calls leaves the cell unchanged and emits no
events. -/
theorem runPres_no_write {T : Type} (o : CellObj T) (pres : List (PreOp T))
    (h : ∀ op ∈ pres, op.isWrite = false) : runPres o pres = (o, []) := by
  induction pres generalizing o with
  | nil => rfl
  | cons op rest ih =>
    have hop := h op (List.mem_cons_self _ _)
    have hrest : ∀ x ∈ rest, PreOp.isWrite x = false :=
      fun x hx => h x (List.mem_cons_of_mem _ hx)
    cases op with
    | borrow => simp [runPres, applyPre, ih o hrest]
    | borrowMut => simp [runPres, applyPre, ih o hrest]
    | write q => simp [PreOp.isWrite] at hop

/-- No non-terminal operation ever invokes the finalizer. -/
theorem runPres_finalizeCount {T : Type} (o : CellObj T) (pres : List (PreOp T)) :
    finalizeCount (runPres o pres).2 = 0 := by
  induction pres generalizing o with
  | nil => simp [runPres, finalizeCount]
  | cons op rest ih =>
    cases op with
    | borrow => simpa [runPres, applyPre] using ih o
    | borrowMut => simpa [runPres, applyPre] using ih o
    | write q =>
      simp [runPres, applyPre, finalizeCount, List.filter_append,
        Event.isFinalize] at ih ⊢
      exact ih _

/-- `finalizeCount` is additive over trace concatenation. -/
theorem finalizeCount_append {T : Type} (a b : List (Event T)) :
    finalizeCount (a ++ b) = finalizeCount a + finalizeCount b := by
  simp [finalizeCount, List.filter_append]

/-- Finalizer count of one instance: 1 on the implicit-drop path, 0 on the
extract path. -/
theorem instEvents_finalizeCount {T : Type} (p : T) (t : Terminal) :
    finalizeCount (instEvents (p, t)) =
      (if t = Terminal.implicitDrop then 1 else 0) := by
  cases t <;>
    simp [instEvents, run, runPres, runTerminal, runIntoInner, scopeExit,
      CellObj.new, finalizeCount, Event.isFinalize]

/-- Finalizer count of a multi-instance scenario destroyed in list order. -/
theorem totalEvents_finalizeCount {T : Type} (l : List (T × Terminal)) :
    finalizeCount (totalEvents l) =
      l.countP (fun i => i.2 == Terminal.implicitDrop) := by
  induction l with
  | nil => simp [totalEvents, finalizeCount]
  | cons i rest ih =>
    have hins := instEvents_finalizeCount i.1 i.2
    simp only [totalEvents, List.map_cons, List.flatten_cons, finalizeCount_append,
      List.countP_cons] at *
    rw [ih, hins]
    cases i with
    | mk p t =>
      cases t <;> simp [Nat.add_comm]

/-! ## Claim theorems -/

/-- C1: for every payload `p`, constructing a cell with `p` and letting it be
dropped without `into_inner` having been called (after any number of borrow
calls) invokes the bound finalizer `D::drop` exactly once, with the original
payload `p`, and never a second time. -/
theorem finalizer_once_on_drop {T : Type} (p : T) (pres : List (PreOp T))
    (h : ∀ op ∈ pres, op.isWrite = false) :
    finalizeValues (run p pres Terminal.implicitDrop).2 = [p] ∧
    finalizeCount (run p pres Terminal.implicitDrop).2 = 1 := by
  constructor <;>
    simp [run, runPres_no_write _ _ h, runTerminal, scopeExit, CellObj.new,
      IntoInnerHelper.new, ManuallyDrop.new, ManuallyDrop.deref,
      finalizeValues, finalizeCount, Event.isFinalize]

theorem finalizer_once_on_drop_witness :
    finalizeValues (run 7 [PreOp.borrow, PreOp.borrowMut] Terminal.implicitDrop).2 = [7] ∧
    finalizeCount (run 7 [PreOp.borrow, PreOp.borrowMut] Terminal.implicitDrop).2 = 1 :=
  finalizer_once_on_drop 7 [PreOp.borrow, PreOp.borrowMut] (by decide)

/-- C2: for every payload `p` and any preceding usage, calling `into_inner`
means the bound finalizer is never invoked for that instance — its invocation
count is exactly 0, even though the returned payload is later destroyed. -/
theorem finalizer_never_after_into_inner {T : Type} (p : T) (pres : List (PreOp T)) :
    finalizeCount (run p pres Terminal.extract).2 = 0 := by
  have hpre := runPres_finalizeCount (CellObj.new p) pres
  have hsplit : (run p pres Terminal.extract).2 =
      (runPres (CellObj.new p) pres).2 ++
        (runTerminal (runPres (CellObj.new p) pres).1 Terminal.extract).2 := rfl
  rw [hsplit, finalizeCount_append, hpre]
  simp [runTerminal, runIntoInner, scopeExit, finalizeCount, Event.isFinalize]

/-- C3: round-trip — `IntoInnerHelper::new(p).into_inner()` returns exactly the
payload `p` that was wrapped; the full extract lifecycle hands `p` to the
caller. -/
theorem into_inner_roundtrip {T : Type} (p : T) :
    (runIntoInner (CellObj.new p)).1 = p ∧
    (run p [] Terminal.extract).1 = some p := by
  exact ⟨rfl, rfl⟩

/-- C4: `into_inner` reads the payload into a temporary and then disables the
cell's destruction machinery (`mem::forget`) before the move completes: the
two micro-steps run to completion, neither can panic (so there is no failure
point between the read and the neutralization), and the resulting object is
disarmed, so any later scope exit of it emits nothing — no double
finalization is possible. -/
theorem into_inner_disarms {T : Type} (p : T) :
    runMicroSteps (IIState.start (CellObj.new p)) intoInnerSteps =
      some (IIState.done p { cell := IntoInnerHelper.new p, armed := false }) ∧
    possiblePanicPoints = [] ∧
    (runIntoInner (CellObj.new p)).2.armed = false ∧
    scopeExit (runIntoInner (CellObj.new p)).2 = [] := by
  refine ⟨rfl, by decide, rfl, rfl⟩

/-- C5: across any multi-instance scenario, destroyed in any order, the total
number of finalizer invocations equals exactly the number of instances that
were dropped without `into_inner` having been called. -/
theorem total_finalize_count {T : Type} (l ordered : List (T × Terminal))
    (h : l.Perm ordered) :
    finalizeCount (totalEvents ordered) =
      l.countP (fun i => i.2 == Terminal.implicitDrop) := by
  rw [totalEvents_finalizeCount, h.countP_eq]

theorem total_finalize_count_witness :
    finalizeCount (totalEvents
        [(3, Terminal.implicitDrop), (1, Terminal.implicitDrop), (2, Terminal.extract)]) =
      ([(1, Terminal.implicitDrop), (2, Terminal.extract), (3, Terminal.implicitDrop)] :
        List (Nat × Terminal)).countP (fun i => i.2 == Terminal.implicitDrop) :=
  total_finalize_count
    [(1, Terminal.implicitDrop), (2, Terminal.extract), (3, Terminal.implicitDrop)]
    [(3, Terminal.implicitDrop), (1, Terminal.implicitDrop), (2, Terminal.extract)]
    (by decide)

/-- C6: calls to `inner` and `inner_mut` (any number of them) before the
terminal operation change nothing: the lifecycle's result and entire event
trace are identical to those of the borrow-free lifecycle, for either
terminal path. -/
theorem borrows_do_not_affect_terminal {T : Type} (p : T) (pres : List (PreOp T))
    (t : Terminal) (h : ∀ op ∈ pres, op.isWrite = false) :
    run p pres t = run p [] t := by
  simp [run, runPres_no_write _ _ h, runPres]

theorem borrows_do_not_affect_terminal_witness :
    run 5 [PreOp.borrow, PreOp.borrowMut, PreOp.borrow] Terminal.extract =
      run 5 [] Terminal.extract :=
  borrows_do_not_affect_terminal 5 [PreOp.borrow, PreOp.borrowMut, PreOp.borrow]
    Terminal.extract (by decide)

/-- C7: every operation of the component is total: none of the primitives the
source executes can fail or performs a runtime check, and every lifecycle
runs to completion, returning a payload exactly on the extract path and no
error value ever. -/
theorem operations_total {T : Type} (p : T) (pres : List (PreOp T)) (t : Terminal) :
    (∀ op : ApiOp, ∀ pr ∈ op.prims, pr.canFail = false) ∧
    ((run p pres t).1.isSome ↔ t = Terminal.extract) := by
  refine ⟨fun op => by cases op <;> decide, ?_⟩
  cases t <;> simp [run, runTerminal]

/-- C8: construction is a pure data move (the slot holds exactly the wrapped
payload, drop armed, no event emitted), and `inner` / `inner_mut` return the
stored payload itself while leaving the cell and its lifecycle state
unchanged. -/
theorem construct_and_borrow {T : Type} (p : T) (o : CellObj T) :
    (CellObj.new p).cell.inner.value = p ∧
    (CellObj.new p).armed = true ∧
    o.cell.innerRef = o.cell.inner.value ∧
    o.cell.innerMutRef = o.cell.inner.value ∧
    applyPre o PreOp.borrow = (o, []) ∧
    applyPre o PreOp.borrowMut = (o, []) := by
  exact ⟨rfl, rfl, rfl, rfl, rfl, rfl⟩

/-- C9: a write through `inner_mut` replacing the payload `p` with `q` is
reflected by the terminal operation: `into_inner` returns `q`, and the
implicit drop passes `q` (not `p`) to `D::drop`. -/
theorem mutation_reflected {T : Type} (p q : T) :
    (run p [PreOp.write q] Terminal.extract).1 = some q ∧
    finalizeValues (run p [PreOp.write q] Terminal.implicitDrop).2 = [q] := by
  constructor <;>
    simp [run, runPres, applyPre, runTerminal, runIntoInner, scopeExit,
      CellObj.new, IntoInnerHelper.new, ManuallyDrop.new, ManuallyDrop.deref,
      finalizeValues]

/-- C10: the payload's intrinsic destructor runs exactly once on every
lifecycle path (with no overwrites, which would retire extra payloads): once
via the caller's returned value on the extract path, once via the finalizer
consuming it on the implicit-drop path — never additionally by the wrapper,
and never zero times. -/
theorem payload_dropped_once {T : Type} (p : T) (pres : List (PreOp T))
    (t : Terminal) (h : ∀ op ∈ pres, op.isWrite = false) :
    intrinsicCount (run p pres t).2 = 1 := by
  cases t <;>
    simp [run, runPres_no_write _ _ h, runTerminal, runIntoInner, scopeExit,
      CellObj.new, intrinsicCount, Event.isIntrinsic]

theorem payload_dropped_once_witness :
    intrinsicCount (run 9 [PreOp.borrow] Terminal.extract).2 = 1 :=
  payload_dropped_once 9 [PreOp.borrow] Terminal.extract (by decide)

end IntoInnerDrop
